import Mathlib

/-!
Shallow embedding of the per-guild audio playback scheduler and dual-queue
engine of `src/cogs/music_cog.py` (class `MusicCog`), together with proofs of
the specification's claims about it.

The per-guild mutable record (`music_queues[guild_id]`, `priority_queues[guild_id]`,
`now_playing[guild_id]`, `loop_modes[guild_id]`, `pause_states[guild_id]`,
`skip_in_progress[guild_id]`, `stop_in_progress[guild_id]`,
`current_play_start[guild_id]`, `current_queue_type[guild_id]`) is modelled as a
single structure `GuildState`; dictionary entries with a missing key are
modelled by `Option`/default values, matching the source's `.get(guild_id, ...)`
accesses.  Different guilds' states are fully independent in the source (each
dict access is keyed by `guild_id`), so one `GuildState` per guild suffices.

Randomness (`random.sample`) is modelled by threading an explicit list of
random numbers: `sample_without` draws, for each step, an index `r % n` into
the remaining pool and removes the drawn element, which is exactly a sample
without replacement; every possible `random.sample` outcome is realised by
some list of draws, and all theorems are quantified over all draw lists.

Telemetry (`update_song_stats`) is modelled by the list of lifecycle events a
transition emits (`queued`/`started`/`completed`/`skipped`, as in the
source's `event_type` strings); the persistence of the stats file is external.
-/

namespace MusicBot

/-- Loop modes, the source's `loop_modes` values `'off' | 'single' | 'queue'`. -/
inductive LoopMode where
  | off
  | single
  | queue
deriving DecidableEq, Repr

/-- Queue provenance, the source's `queue_type` strings `'priority' | 'regular'`. -/
inductive QueueType where
  | priority
  | regular
deriving DecidableEq, Repr

/-- Lifecycle event kinds, the source's `event_type` strings in `update_song_stats`. -/
inductive EventType where
  | queued
  | started
  | completed
  | skipped
deriving DecidableEq, Repr

/-- A track descriptor as held in `song_cache` entries (and aliased into the
queues): `file_path` is the stable id, plus display metadata and the
`is_random` flag set by `add_random_songs`. -/
structure Song where
  file_path : String
  title : String
  artist : String
  duration : Nat
  is_random : Bool
deriving DecidableEq, Repr

/-- One telemetry event as recorded by `update_song_stats(file_path, event_type, queue_type)`. -/
structure Event where
  path : String
  etype : EventType
  qtype : QueueType
deriving DecidableEq, Repr

/-- The per-guild mutable state of `MusicCog` (all dicts keyed by this guild's id). -/
structure GuildState where
  priority_queue : List Song
  music_queue : List Song
  now_playing : Option Song
  loop_mode : LoopMode
  pause_state : Bool
  skip_in_progress : Bool
  stop_in_progress : Bool
  current_play_start : Option Nat
  current_queue_type : QueueType
deriving DecidableEq, Repr

/-- The `queued_song_paths` set built in `add_random_songs`: file paths of
`current_queue + priority_queue` plus the currently playing song, if any. -/
def queued_song_paths (s : GuildState) : List String :=
  (s.music_queue ++ s.priority_queue).map (fun t => t.file_path) ++
    (match s.now_playing with
     | some t => [t.file_path]
     | none => [])

/-- The `available_songs` filter of `add_random_songs`: catalog entries whose
`file_path` is not already queued or playing. -/
def available_songs (cache : List Song) (s : GuildState) : List Song :=
  cache.filter (fun song => ! (queued_song_paths s).contains song.file_path)

/-- A sample without replacement from `avail`, of size `min n avail.length`,
driven by the explicit draws `rand`: each step removes the drawn element from
the pool.  This models `random.sample(available_songs, num_to_add)`. -/
def sample_without : List Song → Nat → List Nat → List Song
  | _, 0, _ => []
  | [], _ + 1, _ => []
  | a :: rest, n + 1, rand =>
      let avail := a :: rest
      let i := rand.headD 0 % avail.length
      (avail.getD i a) :: sample_without (avail.eraseIdx i) n rand.tail

/-- Result of `add_random_songs`: the (possibly flag-mutated) catalog, the new
guild state, and the `queued` telemetry events emitted. -/
structure ReplenishResult where
  cache : List Song
  state : GuildState
  events : List Event
deriving DecidableEq, Repr

/-- `add_random_songs(guild_id, min_count)` (music_cog.py lines 572-617).
If the catalog is empty, or no song is available (all already queued or
playing), it is a no-op.  Otherwise it samples
`min(min_count, len(available_songs))` songs without replacement, sets
`is_random = True` on each sampled song — a mutation of the *catalog's* dicts,
since the sampled entries alias `song_cache` (entries are keyed by their
distinct file paths, so updating the catalog by file path models the
source's in-place dict mutation) — appends them to the regular queue, and
records a `queued`/`regular` event for each. -/
def add_random_songs (cache : List Song) (s : GuildState) (min_count : Nat)
    (rand : List Nat) : ReplenishResult :=
  if cache = [] then ⟨cache, s, []⟩
  else
    let avail := available_songs cache s
    if avail = [] then ⟨cache, s, []⟩
    else
      let num_to_add := min min_count avail.length
      let sampled := sample_without avail num_to_add rand
      let sampled_paths := sampled.map (fun t => t.file_path)
      let marked := sampled.map (fun t => { t with is_random := true })
      let cache_after := cache.map (fun t =>
        if sampled_paths.contains t.file_path then { t with is_random := true } else t)
      ⟨cache_after,
       { s with music_queue := s.music_queue ++ marked },
       marked.map (fun t => ⟨t.file_path, EventType.queued, QueueType.regular⟩)⟩

/-- Result of a `play_song` call: the updated state, the telemetry it emitted,
and whether the transport actually began playback (`False` models the
`except` branch at music_cog.py lines 431-433, where the error is only logged
and reported — no state is rolled back and nothing further happens, since the
`after` completion callback is only installed by a successful `play`). -/
structure PlayResult where
  state : GuildState
  events : List Event
  began : Bool
deriving DecidableEq, Repr

/-- The state-relevant core of `play_song` (music_cog.py lines 344-433).
UI rendering, presence updates and the TTS announcement are external
side effects.  The function records the play start time and the queue type,
emits a `started` event, and then asks the transport to play; note that it
does *not* assign `now_playing` (its callers do) and that the `started`
event is recorded (line 415) before the transport `play` attempt. -/
def play_song (s : GuildState) (t : Song) (qtype : QueueType) (now : Nat)
    (transport_ok : Bool) : PlayResult :=
  ⟨{ s with current_play_start := some now, current_queue_type := qtype },
   [⟨t.file_path, EventType.started, qtype⟩],
   transport_ok⟩

/-- What the completion handler decided to do. -/
inductive EndAction where
  | played_next (t : Song)
  | stop_handled
  | disconnected
  | was_disconnected
deriving DecidableEq, Repr

/-- Result of one run of `on_song_end`. -/
structure EndResult where
  cache : List Song
  state : GuildState
  events : List Event
  pending_replenish : Option Nat
  action : EndAction
deriving DecidableEq, Repr

/-- The telemetry block of `on_song_end` in the still-connected case
(music_cog.py lines 470-490): if a song and its start time are recorded,
emit `completed` (no skip pending) or `skipped` (skip pending) with the
current queue type, then drop the start time and clear the skip flag. -/
def end_stats_connected (s : GuildState) : GuildState × List Event :=
  match s.now_playing, s.current_play_start with
  | some t, some _ =>
      let ev : Event :=
        if s.skip_in_progress then ⟨t.file_path, EventType.skipped, s.current_queue_type⟩
        else ⟨t.file_path, EventType.completed, s.current_queue_type⟩
      ({ s with current_play_start := none, skip_in_progress := false }, [ev])
  | _, _ => (s, [])

/-- `on_song_end` (music_cog.py lines 435-570), the completion callback fired
by the transport after every track end.

* `connected = false` models lines 440-468 (bot no longer in voice): record
  the completion/skip event and clear `now_playing`; in the *completed*
  sub-branch the source does not delete `current_play_start` nor the skip
  flag (the deletions at lines 458-461 are inside the skip sub-branch only).
* Otherwise: record telemetry (lines 470-490); if a stop is in progress,
  consume the flag and do nothing else (lines 492-497); loop `single`
  replays `now_playing` (lines 499-506); loop `queue` first re-appends the
  finished song to the regular queue's tail (lines 508-516); then the head
  of the priority queue, else the head of the regular queue, is promoted to
  `now_playing` and played (lines 518-539) — in the regular case a
  background replenish task is spawned (`asyncio.create_task`, line 537)
  when the remaining depth is below 3, modelled by `pending_replenish`;
  if both queues are empty, `add_random_songs` is awaited inline with its
  default `min_count = 3` (line 542) and the refilled queue is tried once
  more, else `now_playing` is cleared and the bot disconnects. -/
def on_song_end (cache : List Song) (s : GuildState) (connected : Bool)
    (now : Nat) (rand : List Nat) : EndResult :=
  if connected = false then
    let sev :=
      match s.now_playing, s.current_play_start with
      | some t, some _ =>
          if s.skip_in_progress then
            ({ s with current_play_start := none, skip_in_progress := false },
             [(⟨t.file_path, EventType.skipped, s.current_queue_type⟩ : Event)])
          else
            (s, [(⟨t.file_path, EventType.completed, s.current_queue_type⟩ : Event)])
      | _, _ => (s, [])
    ⟨cache, { sev.1 with now_playing := none }, sev.2, none, EndAction.was_disconnected⟩
  else
    let s1 := (end_stats_connected s).1
    let evs1 := (end_stats_connected s).2
    if s1.stop_in_progress then
      ⟨cache, { s1 with stop_in_progress := false }, evs1, none, EndAction.stop_handled⟩
    else
      if h : s1.loop_mode = LoopMode.single ∧ s1.now_playing.isSome then
        let t := s1.now_playing.get h.2
        let pr := play_song s1 t QueueType.regular now true
        ⟨cache, pr.state, evs1 ++ pr.events, none, EndAction.played_next t⟩
      else
        let s2 :=
          match s1.loop_mode, s1.now_playing with
          | LoopMode.queue, some t => { s1 with music_queue := s1.music_queue ++ [t] }
          | _, _ => s1
        match s2.priority_queue with
        | t :: rest =>
            let s3 := { s2 with priority_queue := rest, now_playing := some t }
            let pr := play_song s3 t QueueType.priority now true
            ⟨cache, pr.state, evs1 ++ pr.events, none, EndAction.played_next t⟩
        | [] =>
          match s2.music_queue with
          | t :: rest =>
              let s3 := { s2 with music_queue := rest, now_playing := some t }
              let pending := if rest.length < 3 then some (3 - rest.length) else none
              let pr := play_song s3 t QueueType.regular now true
              ⟨cache, pr.state, evs1 ++ pr.events, pending, EndAction.played_next t⟩
          | [] =>
              let rr := add_random_songs cache s2 3 rand
              match rr.state.music_queue with
              | t :: rest =>
                  let s3 := { rr.state with music_queue := rest, now_playing := some t }
                  let pr := play_song s3 t QueueType.regular now true
                  ⟨rr.cache, pr.state, evs1 ++ rr.events ++ pr.events, none,
                   EndAction.played_next t⟩
              | [] =>
                  ⟨rr.cache, { rr.state with now_playing := none }, evs1 ++ rr.events, none,
                   EndAction.disconnected⟩

/-- The priority-queue enqueue of the `/play` command while something is
already playing (music_cog.py lines 282-288): append to the priority queue,
record a `queued`/`priority` event, and report the 1-based position in the
combined queue (priority songs play first, so it is the new priority length). -/
def enqueue_priority (s : GuildState) (t : Song) : GuildState × List Event × Nat :=
  let q := s.priority_queue ++ [t]
  ({ s with priority_queue := q },
   [⟨t.file_path, EventType.queued, QueueType.priority⟩],
   q.length)

/-- The state effect of the `/skip` command / skip button once its guards
passed (a song is playing; music_cog.py lines 1767-1779 and 1007-1018):
set `skip_in_progress` and stop the transport (which will fire `on_song_end`);
a background replenish task is spawned when the regular depth is below 3,
returned here as the scheduled `min_count`. -/
def skip_request (s : GuildState) : GuildState × Option Nat :=
  ({ s with skip_in_progress := true },
   if s.music_queue.length < 3 then some (3 - s.music_queue.length) else none)

/-- The stop button handler (music_cog.py lines 1026-1074) in the case where
the transport is not currently playing, so `voice_client.stop()` is not
called and no completion callback ever fires: set `stop_in_progress`, drop
the play-start record, delete both queues and `now_playing`, disconnect, and
finally clear `stop_in_progress` again (lines 1072-1074). -/
def stop_request_idle (s : GuildState) : GuildState :=
  let s1 := { s with stop_in_progress := true }
  let s2 :=
    match s1.now_playing, s1.current_play_start with
    | some _, some _ => { s1 with current_play_start := none }
    | _, _ => s1
  let s3 := { s2 with priority_queue := [], music_queue := [], now_playing := none }
  { s3 with stop_in_progress := false }

/-- Only the flag-setting step of a skip request (music_cog.py line 1769 /
line 1008), for stating what a *second* request does to an already-set guard. -/
def set_skip_flag (s : GuildState) : GuildState :=
  { s with skip_in_progress := true }

/-- Only the flag-setting step of a stop request (music_cog.py line 1028). -/
def set_stop_flag (s : GuildState) : GuildState :=
  { s with stop_in_progress := true }

/-- The Clear Queue button handler (music_cog.py lines 1129-1160).
`has_priority_key` / `has_music_key` model whether `guild_id` is present in
the `priority_queues` / `music_queues` dicts (a key can exist with an empty
list; a non-empty modelled queue implies the key exists).  The handler drops
the play-start record, clears whichever queues have keys, and — when anything
was cleared — awaits `add_random_songs(guild_id, min_count=3)`. -/
def handle_clear (cache : List Song) (s : GuildState)
    (has_priority_key has_music_key : Bool) (rand : List Nat) : ReplenishResult :=
  let s1 :=
    match s.now_playing, s.current_play_start with
    | some _, some _ => { s with current_play_start := none }
    | _, _ => s
  let s2 := if has_priority_key then { s1 with priority_queue := [] } else s1
  let s3 := if has_music_key then { s2 with music_queue := [] } else s2
  let cleared_anything := has_priority_key || has_music_key
  if cleared_anything then add_random_songs cache s3 3 rand
  else ⟨cache, s3, []⟩

/-- The transport's playback status as exposed by the voice client
(`is_playing()` / `is_paused()` / neither). -/
inductive TransportState where
  | playing
  | paused
  | idle
deriving DecidableEq, Repr

/-- The per-guild voice-occupancy state: `alone_since` is the attribute the
source attaches to the voice client, `transport` the voice client's playback
status, `human_count` the number of non-bot members of the bot's channel as
last observed. -/
structure OccState where
  alone_since : Option Nat
  transport : TransportState
  connected : Bool
  now_playing : Option Song
  human_count : Nat
deriving DecidableEq, Repr

/-- The occupancy branch of `on_voice_state_update` (music_cog.py lines
1424-1486) for a membership change in the bot's channel: with zero humans,
pause a playing transport and set `alone_since` (starting the countdown
task) unless already set; with humans present, resume a paused transport and
clear `alone_since` (cancelling the countdown).  Presence updates are
external. -/
def voice_update (s : OccState) (humans : Nat) (now : Nat) : OccState :=
  let s0 := { s with human_count := humans }
  if humans = 0 then
    let s1 :=
      if s0.transport = TransportState.playing then
        { s0 with transport := TransportState.paused }
      else s0
    match s1.alone_since with
    | none => { s1 with alone_since := some now }
    | some _ => s1
  else
    let s1 :=
      if s0.transport = TransportState.paused then
        { s0 with transport := TransportState.playing }
      else s0
    { s1 with alone_since := none }

/-- `schedule_disconnect` (music_cog.py lines 1513-1551) viewed from the
per-guild state: `ticks` periodic iterations remain, each of which first
reads the `alone_since` guard and returns immediately when it has been
cleared (line 1521-1523) — the tick body only updates external presence and
sleeps, mutating no queue/track state; after the last tick, the final check
(lines 1528-1530) disconnects and clears `now_playing` only when
`alone_since` is still set, the bot is still connected, and the channel is
still human-empty. -/
def run_countdown : Nat → OccState → OccState
  | 0, s =>
      if s.alone_since.isSome ∧ s.connected = true ∧ s.human_count = 0 then
        { s with connected := false, now_playing := none }
      else s
  | n + 1, s =>
      if s.alone_since = none then s else run_countdown n s

/-- Forgetting the `is_random` display flag of a track descriptor; two
catalogs are the same up to display flags when their `strip_random` images
agree. -/
def strip_random (t : Song) : Song :=
  { t with is_random := false }

/-- The next-track selection the source inlines at music_cog.py lines
518-539 (the spec's `dequeueNext`): head of the priority queue if non-empty,
else head of the regular queue, else `none`. -/
def dequeue_next (s : GuildState) : Option Song × GuildState :=
  match s.priority_queue with
  | t :: rest => (some t, { s with priority_queue := rest })
  | [] =>
    match s.music_queue with
    | t :: rest => (some t, { s with music_queue := rest })
    | [] => (none, s)

/-- Running `n` consecutive completion callbacks (still connected), observing
only the per-guild state; used for the loop-single repetition claim. -/
def iterate_completions (cache : List Song) (now : Nat) (rand : List Nat) :
    Nat → GuildState → GuildState
  | 0, s => s
  | n + 1, s =>
      iterate_completions cache now rand n (on_song_end cache s true now rand).state

/-- Concrete catalog entries for witnesses and counterexamples. -/
def songA : Song := ⟨"songs/a.mp3", "Alpha", "ArtistOne", 120, false⟩

def songB : Song := ⟨"songs/b.mp3", "Beta", "ArtistTwo", 150, false⟩

def songC : Song := ⟨"songs/c.mp3", "Gamma", "ArtistThree", 90, false⟩

def songD : Song := ⟨"songs/d.mp3", "Delta", "ArtistFour", 200, false⟩

/-- An idle guild state: empty queues, nothing playing, loop off, no flags. -/
def baseState : GuildState :=
  ⟨[], [], none, LoopMode.off, false, false, false, none, QueueType.regular⟩

/-- The catalog-immutability claim instantiated at one concrete replenishment:
the run of `add_random_songs` on a one-song catalog from the idle state would
have to leave the catalog unchanged. -/
def c9_claim_at_input : Prop :=
  (add_random_songs [songA] baseState 3 [0]).cache = [songA]

/-- The spec's transport-failure claim instantiated at one concrete input: a
transport start failure for `songA` (with `songB` queued as next candidate)
would have to advance `now_playing` to the next candidate, `songB`, as a
completion does.  (The code's `except` handler at music_cog.py lines 431-433
only logs and reports; its event vocabulary has no failure tag at all.) -/
def c5_claim_at_input : Prop :=
  (play_song
      { baseState with now_playing := some songA, music_queue := [songB] }
      songA QueueType.priority 4 false).state.now_playing = some songB

/-- The transition-guard claim instantiated at one concrete input: after a
stop request whose handler runs without any completion callback firing (the
transport was not playing), the stop guard would have to remain set, since
only the completion handler may clear it. -/
def c3_claim_at_input : Prop :=
  (stop_request_idle
      { baseState with music_queue := [songB], now_playing := some songA }
    ).stop_in_progress = true

/-- Number of telemetry events of kind `ty` for track id `path`. -/
def count_events (evs : List Event) (ty : EventType) (path : String) : Nat :=
  evs.countP (fun e => decide (e.etype = ty) && decide (e.path = path))

/-- Number of telemetry events of kind `ty` (for any track). -/
def count_events_ty (evs : List Event) (ty : EventType) : Nat :=
  evs.countP (fun e => decide (e.etype = ty))

theorem sample_without_mem (n : Nat) :
    ∀ (avail : List Song) (rand : List Nat) (t : Song),
      t ∈ sample_without avail n rand → t ∈ avail := by
  induction n with
  | zero => intro avail rand t h; simp [sample_without] at h
  | succ n ih =>
    intro avail rand t h
    match avail with
    | [] => simp [sample_without] at h
    | a :: rest =>
      rw [sample_without] at h
      rcases List.mem_cons.mp h with h1 | h2
      · have hi : rand.headD 0 % (a :: rest).length < (a :: rest).length :=
          Nat.mod_lt _ (by simp)
        rw [List.getD_eq_getElem _ _ hi] at h1
        exact h1 ▸ List.getElem_mem hi
      · exact List.eraseIdx_sublist (a :: rest) _ |>.subset (ih _ _ _ h2)

theorem sample_without_length (n : Nat) :
    ∀ (avail : List Song) (rand : List Nat),
      (sample_without avail n rand).length = min n avail.length := by
  induction n with
  | zero => intro avail rand; simp [sample_without]
  | succ n ih =>
    intro avail rand
    match avail with
    | [] => simp [sample_without]
    | a :: rest =>
      have hi : rand.headD 0 % (a :: rest).length < (a :: rest).length :=
        Nat.mod_lt _ (by simp)
      have hlen := List.length_eraseIdx_add_one hi
      have hrec := ih ((a :: rest).eraseIdx (rand.headD 0 % (a :: rest).length)) rand.tail
      rw [sample_without, List.length_cons, hrec]
      omega

theorem cons_eraseIdx_perm (l : List Song) (i : Nat) (h : i < l.length) :
    (l[i] :: l.eraseIdx i).Perm l := by
  have h1 : (l.erase l[i]).Perm (l.eraseIdx i) := List.erase_getElem h
  have h2 : l.Perm (l[i] :: l.erase l[i]) := List.perm_cons_erase (List.getElem_mem h)
  exact ((h1.symm.cons _).trans h2.symm)

theorem sample_without_subperm (n : Nat) :
    ∀ (avail : List Song) (rand : List Nat),
      (sample_without avail n rand).Subperm avail := by
  induction n with
  | zero => intro avail rand; simp [sample_without]
  | succ n ih =>
    intro avail rand
    match avail with
    | [] => simp [sample_without]
    | a :: rest =>
      have hi : rand.headD 0 % (a :: rest).length < (a :: rest).length :=
        Nat.mod_lt _ (by simp)
      rw [sample_without]
      have step : ((a :: rest).getD (rand.headD 0 % (a :: rest).length) a ::
          sample_without ((a :: rest).eraseIdx (rand.headD 0 % (a :: rest).length)) n
            rand.tail).Subperm
          ((a :: rest).getD (rand.headD 0 % (a :: rest).length) a ::
            (a :: rest).eraseIdx (rand.headD 0 % (a :: rest).length)) :=
        (List.subperm_cons _).mpr (ih _ _)
      refine step.trans ?_
      rw [List.getD_eq_getElem _ _ hi]
      exact (cons_eraseIdx_perm _ _ hi).subperm

theorem subperm_map (f : Song → String) {l₁ l₂ : List Song} (h : l₁.Subperm l₂) :
    (l₁.map f).Subperm (l₂.map f) := by
  obtain ⟨u, hperm, hsub⟩ := h
  exact ⟨u.map f, hperm.map f, hsub.map f⟩

/-- Full characterisation of `add_random_songs`: it appends a block `added`
to the regular queue and touches nothing else of the guild state; `added` is
at most `min_count` long, consists of marked (`is_random = true`) copies of
eligible catalog entries — in particular no added id is already queued or
playing — is drawn without replacement from the eligible entries (its paths
form a sub-permutation of the eligible paths), reaches exactly
`min(min_count, |available|)` when anything is available, is empty when
nothing is, and each added track gets one `queued`/`regular` event. -/
theorem add_random_songs_spec (cache : List Song) (s : GuildState)
    (min_count : Nat) (rand : List Nat) :
    ∃ added : List Song,
      (add_random_songs cache s min_count rand).state =
        { s with music_queue := s.music_queue ++ added } ∧
      (add_random_songs cache s min_count rand).events =
        added.map (fun t => ⟨t.file_path, EventType.queued, QueueType.regular⟩) ∧
      added.length ≤ min_count ∧
      (∀ t ∈ added, t.is_random = true) ∧
      (∀ t ∈ added, ((queued_song_paths s).contains t.file_path) = false) ∧
      (∀ t ∈ added, ∃ c ∈ cache, t.file_path = c.file_path) ∧
      (added.map (fun t => t.file_path)).Subperm
        ((available_songs cache s).map (fun t => t.file_path)) ∧
      (available_songs cache s ≠ [] →
        added.length = min min_count (available_songs cache s).length) ∧
      (available_songs cache s = [] → added = []) := by
  by_cases hc : cache = []
  · subst hc
    refine ⟨[], ?_⟩
    have hav : available_songs [] s = [] := by
      simp [available_songs]
    simp [add_random_songs, hav]
  · by_cases hav : available_songs cache s = []
    · refine ⟨[], ?_⟩
      simp [add_random_songs, hc, hav]
    · set avail := available_songs cache s with havdef
      set num := min min_count avail.length with hnum
      set sampled := sample_without avail num rand with hsampled
      refine ⟨sampled.map (fun t => { t with is_random := true }), ?_, ?_, ?_, ?_, ?_, ?_, ?_, ?_, ?_⟩
      · simp [add_random_songs, hc, hav, ← havdef, ← hnum, ← hsampled]
      · simp [add_random_songs, hc, hav, ← havdef, ← hnum, ← hsampled, List.map_map,
          Function.comp]
      · have := sample_without_length num avail rand
        rw [← hsampled] at this
        simp only [List.length_map, this, hnum]
        omega
      · intro t ht
        obtain ⟨u, _, rfl⟩ := List.mem_map.mp ht
        rfl
      · intro t ht
        obtain ⟨u, hu, rfl⟩ := List.mem_map.mp ht
        have hmem : u ∈ avail := sample_without_mem num avail rand u hu
        have := List.mem_filter.mp (havdef ▸ hmem)
        simpa using this.2
      · intro t ht
        obtain ⟨u, hu, rfl⟩ := List.mem_map.mp ht
        have hmem : u ∈ avail := sample_without_mem num avail rand u hu
        have := List.mem_filter.mp (havdef ▸ hmem)
        exact ⟨u, this.1, rfl⟩
      · have hsp : sampled.Subperm avail := hsampled ▸ sample_without_subperm num avail rand
        have : (sampled.map (fun t => ({ t with is_random := true } : Song))).map
            (fun t => t.file_path) = sampled.map (fun t => t.file_path) := by
          simp [List.map_map, Function.comp]
        rw [List.map_map, Function.comp_def]
        exact subperm_map _ hsp
      · intro _
        have := sample_without_length num avail rand
        rw [← hsampled] at this
        simp only [List.length_map, this, hnum]
        omega
      · intro h; exact absurd h hav

/-- `add_random_songs` changes the catalog only by setting `is_random`
display flags: the `strip_random` image of the catalog is preserved. -/
theorem add_random_songs_cache_strip (cache : List Song) (s : GuildState)
    (min_count : Nat) (rand : List Nat) :
    ((add_random_songs cache s min_count rand).cache).map strip_random =
      cache.map strip_random := by
  by_cases hc : cache = []
  · simp [add_random_songs, hc]
  · by_cases hav : available_songs cache s = []
    · simp [add_random_songs, hc, hav]
    · simp only [add_random_songs, hc, hav, if_neg, if_false]
      rw [List.map_map]
      refine List.map_congr_left ?_
      intro t _
      simp only [Function.comp]
      split
      · simp [strip_random]
      · simp [strip_random]

/-- When nothing is available (in particular when the catalog is empty),
`add_random_songs` is a strict no-op. -/
theorem add_random_songs_noop (cache : List Song) (s : GuildState)
    (min_count : Nat) (rand : List Nat) (hav : available_songs cache s = []) :
    add_random_songs cache s min_count rand = ⟨cache, s, []⟩ := by
  by_cases hc : cache = []
  · simp [add_random_songs, hc]
  · simp [add_random_songs, hc, hav]

/-- C1: after a completion (guild still connected, loop off, no stop
pending), the controller promotes the head of the priority queue whenever it
is non-empty, and only otherwise the head of the regular queue, preserving
FIFO order (the rest of the dequeued queue survives in order, and
`enqueue` appends at the tail); when both queues are empty the selection
(`dequeue_next`, the inlined lines 518-539) yields `none`. -/
theorem c1_dequeue_priority_first (cache : List Song) (s : GuildState)
    (now : Nat) (rand : List Nat)
    (hloop : s.loop_mode = LoopMode.off) (hstop : s.stop_in_progress = false) :
    (∀ t rest, s.priority_queue = t :: rest →
        (on_song_end cache s true now rand).state.now_playing = some t ∧
        (on_song_end cache s true now rand).state.priority_queue = rest ∧
        (on_song_end cache s true now rand).state.music_queue = s.music_queue ∧
        (on_song_end cache s true now rand).action = EndAction.played_next t) ∧
    (∀ t rest, s.priority_queue = [] → s.music_queue = t :: rest →
        (on_song_end cache s true now rand).state.now_playing = some t ∧
        (on_song_end cache s true now rand).state.music_queue = rest ∧
        (on_song_end cache s true now rand).action = EndAction.played_next t) ∧
    (s.priority_queue = [] → s.music_queue = [] → (dequeue_next s).1 = none) ∧
    (∀ u t, (enqueue_priority u t).1.priority_queue = u.priority_queue ++ [t]) := by
  obtain ⟨pq, mq, np, lm, pz, sk, st, cps, cqt⟩ := s
  simp only at hloop hstop
  subst hloop hstop
  refine ⟨?_, ?_, ?_, ?_⟩
  · rintro t rest rfl
    cases np <;> cases cps <;>
      simp [on_song_end, end_stats_connected, play_song]
  · rintro t rest rfl rfl
    cases np <;> cases cps <;>
      simp [on_song_end, end_stats_connected, play_song]
  · rintro rfl rfl
    simp [dequeue_next]
  · intro u t
    simp [enqueue_priority]

/-- Witness for C1, at a state with `songB` queued with priority and `songC`
queued regular while `songA` finishes. -/
theorem c1_dequeue_priority_first_witness :
    (on_song_end [] ⟨[songB], [songC], some songA, LoopMode.off, false, false,
        false, some 3, QueueType.regular⟩ true 9 []).state.now_playing = some songB :=
  ((c1_dequeue_priority_first [] _ 9 [] rfl rfl).1 songB [] rfl).1

/-- C2: replenishment appends a block `added` to the regular queue, touching
neither the priority queue nor `now_playing`; `added` never contains an id
already queued or playing, has at most `min_count` entries (exactly
`min(min_count, |available|)` when anything is eligible), is sampled without
replacement from the eligible catalog entries (its ids form a
sub-permutation of theirs), and every added entry is marked as randomly
selected; when no catalog entry is eligible the call is a strict no-op. -/
theorem c2_replenish_spec (cache : List Song) (s : GuildState)
    (min_count : Nat) (rand : List Nat) :
    (∃ added : List Song,
      (add_random_songs cache s min_count rand).state =
        { s with music_queue := s.music_queue ++ added } ∧
      added.length ≤ min_count ∧
      (available_songs cache s ≠ [] →
        added.length = min min_count (available_songs cache s).length) ∧
      (∀ t ∈ added, t.is_random = true) ∧
      (∀ t ∈ added, t.file_path ∉ queued_song_paths s) ∧
      (added.map (fun t => t.file_path)).Subperm
        ((available_songs cache s).map (fun t => t.file_path))) ∧
    (available_songs cache s = [] →
      add_random_songs cache s min_count rand = ⟨cache, s, []⟩) := by
  obtain ⟨added, h1, _, h3, h4, h5, _, h7, h8, _⟩ :=
    add_random_songs_spec cache s min_count rand
  refine ⟨⟨added, h1, h3, h8, h4, ?_, h7⟩, add_random_songs_noop cache s min_count rand⟩
  intro t ht
  have := h5 t ht
  simpa using this

/-- Witness for C2: replenishing from catalog `[songA, songB]` while `songA`
is playing adds only `songB`; replenishing from `[songA]` alone is a no-op. -/
theorem c2_replenish_spec_witness :
    (add_random_songs [songA] { baseState with now_playing := some songA } 3 [0]) =
      ⟨[songA], { baseState with now_playing := some songA }, []⟩ :=
  (c2_replenish_spec [songA] { baseState with now_playing := some songA } 3 [0]).2
    (by decide)

/-- `on_song_end` changes the catalog only by `is_random` display flags
(through the inline replenishment of its empty-queues branch). -/
theorem on_song_end_cache_strip (cache : List Song) (s : GuildState)
    (connected : Bool) (now : Nat) (rand : List Nat) :
    ((on_song_end cache s connected now rand).cache).map strip_random =
      cache.map strip_random := by
  obtain ⟨pq, mq, np, lm, pz, sk, st, cps, cqt⟩ := s
  cases connected
  · cases np <;> cases cps <;> simp [on_song_end]
  · cases lm <;> cases np <;> cases cps <;> cases st <;> cases pq <;> cases mq <;>
      simp [on_song_end, end_stats_connected, play_song] <;>
      (try split) <;> simp [add_random_songs_cache_strip]

/-- `handle_clear` changes the catalog only by `is_random` display flags
(through the replenishment it awaits). -/
theorem handle_clear_cache_strip (cache : List Song) (s : GuildState)
    (has_priority_key has_music_key : Bool) (rand : List Nat) :
    ((handle_clear cache s has_priority_key has_music_key rand).cache).map
        strip_random = cache.map strip_random := by
  obtain ⟨pq, mq, np, lm, pz, sk, st, cps, cqt⟩ := s
  cases has_priority_key <;> cases has_music_key <;> cases np <;> cases cps <;>
    simp [handle_clear, add_random_songs_cache_strip]

/-- C9 counterexample: one concrete replenishment run mutates its catalog
entry in place (the sampled `song_cache` dict gets `is_random = True` at
music_cog.py lines 604-606), so the catalog is not left unchanged. -/
theorem c9_counterexample : ¬ c9_claim_at_input := by
  unfold c9_claim_at_input
  decide

/-- C9 (amended): every operation of the core leaves the catalog's
membership and every descriptor's id, title, artist and duration unchanged;
the only catalog mutation is replenishment (directly, or inlined in the
completion handler and the clear handler) setting the `is_random` display
flag on the entries it samples. -/
theorem c9_catalog_read_only_up_to_flags (cache : List Song) (s : GuildState)
    (min_count : Nat) (rand : List Nat) (connected : Bool) (now : Nat)
    (has_priority_key has_music_key : Bool) :
    ((add_random_songs cache s min_count rand).cache).map strip_random =
        cache.map strip_random ∧
    ((on_song_end cache s connected now rand).cache).map strip_random =
        cache.map strip_random ∧
    ((handle_clear cache s has_priority_key has_music_key rand).cache).map
        strip_random = cache.map strip_random :=
  ⟨add_random_songs_cache_strip cache s min_count rand,
   on_song_end_cache_strip cache s connected now rand,
   handle_clear_cache_strip cache s has_priority_key has_music_key rand⟩

/-- C6: with loop mode `queue`, a completion first re-appends the finished
track at the tail of the regular queue and then promotes the previous head —
the priority head if the priority queue is non-empty, else the regular head
(in the latter case the finished track sits at the tail of what remains). -/
theorem c6_loop_queue_recycle (cache : List Song) (s : GuildState)
    (now : Nat) (rand : List Nat) (t : Song)
    (hloop : s.loop_mode = LoopMode.queue) (hstop : s.stop_in_progress = false)
    (hnp : s.now_playing = some t) :
    (∀ p rest, s.priority_queue = p :: rest →
        (on_song_end cache s true now rand).state.now_playing = some p ∧
        (on_song_end cache s true now rand).state.music_queue =
          s.music_queue ++ [t] ∧
        (on_song_end cache s true now rand).state.priority_queue = rest) ∧
    (∀ m rest, s.priority_queue = [] → s.music_queue = m :: rest →
        (on_song_end cache s true now rand).state.now_playing = some m ∧
        (on_song_end cache s true now rand).state.music_queue = rest ++ [t]) := by
  obtain ⟨pq, mq, np, lm, pz, sk, st, cps, cqt⟩ := s
  simp only at hloop hstop hnp
  subst hloop hstop hnp
  constructor
  · rintro p rest rfl
    cases cps <;> simp [on_song_end, end_stats_connected, play_song]
  · rintro m rest rfl rfl
    cases cps <;> simp [on_song_end, end_stats_connected, play_song]

/-- Witness for C6: `songA` finishes under loop `queue` with priority queue
`[songB]` and regular queue `[songC]`; `songB` plays, `songA` recycles. -/
theorem c6_loop_queue_recycle_witness :
    (on_song_end [] ⟨[songB], [songC], some songA, LoopMode.queue, false, false,
        false, some 2, QueueType.regular⟩ true 8 []).state.music_queue =
      [songC, songA] :=
  ((c6_loop_queue_recycle [] _ 8 [] songA rfl rfl rfl).1 songB [] rfl).2.1

/-- One completion under loop mode `single` replays the very same
`now_playing` track and leaves both queues, the loop mode and the stop flag
untouched. -/
theorem on_song_end_single_step (cache : List Song) (s : GuildState)
    (now : Nat) (rand : List Nat) (t : Song)
    (hloop : s.loop_mode = LoopMode.single) (hnp : s.now_playing = some t)
    (hstop : s.stop_in_progress = false) :
    (on_song_end cache s true now rand).state.now_playing = some t ∧
    (on_song_end cache s true now rand).state.music_queue = s.music_queue ∧
    (on_song_end cache s true now rand).state.priority_queue = s.priority_queue ∧
    (on_song_end cache s true now rand).state.loop_mode = LoopMode.single ∧
    (on_song_end cache s true now rand).state.stop_in_progress = false ∧
    (on_song_end cache s true now rand).action = EndAction.played_next t := by
  obtain ⟨pq, mq, np, lm, pz, sk, st, cps, cqt⟩ := s
  simp only at hloop hnp hstop
  subst hloop hnp hstop
  cases cps <;> simp [on_song_end, end_stats_connected, play_song]

/-- C7: with loop mode `single` and a playing track, any number of
consecutive completion callbacks keeps replaying that same track:
`now_playing` holds the same track after each completion and neither queue is
ever mutated by the completion handling. -/
theorem c7_loop_single_repeats (cache : List Song) (now : Nat) (rand : List Nat)
    (n : Nat) (s : GuildState) (t : Song)
    (hloop : s.loop_mode = LoopMode.single) (hnp : s.now_playing = some t)
    (hstop : s.stop_in_progress = false) :
    (iterate_completions cache now rand n s).now_playing = some t ∧
    (iterate_completions cache now rand n s).music_queue = s.music_queue ∧
    (iterate_completions cache now rand n s).priority_queue = s.priority_queue := by
  induction n generalizing s with
  | zero => simp [iterate_completions, hnp]
  | succ n ih =>
    obtain ⟨h1, h2, h3, h4, h5, _⟩ :=
      on_song_end_single_step cache s now rand t hloop hnp hstop
    have hstep := ih (on_song_end cache s true now rand).state h4 h1 h5
    rw [iterate_completions]
    exact ⟨hstep.1, by rw [hstep.2.1, h2], by rw [hstep.2.2, h3]⟩

/-- Witness for C7: two completions of `songA` under loop `single` leave it
playing with the regular queue `[songB]` untouched. -/
theorem c7_loop_single_repeats_witness :
    (iterate_completions [] 5 [] 2
        { baseState with
            loop_mode := LoopMode.single,
            now_playing := some songA,
            music_queue := [songB] }).now_playing = some songA :=
  (c7_loop_single_repeats [] 5 [] 2 _ songA rfl rfl rfl).1

/-- Replenishment only emits `queued` events. -/
theorem add_random_songs_events_queued (cache : List Song) (s : GuildState)
    (min_count : Nat) (rand : List Nat) :
    ∀ e ∈ (add_random_songs cache s min_count rand).events,
      e.etype = EventType.queued := by
  obtain ⟨added, _, h2, _⟩ := add_random_songs_spec cache s min_count rand
  rw [h2]
  intro e he
  obtain ⟨u, _, rfl⟩ := List.mem_map.mp he
  rfl

/-- Replenishment records no `skipped` event for any track. -/
theorem add_random_songs_no_skipped (cache : List Song) (s : GuildState)
    (min_count : Nat) (rand : List Nat) (path : String) :
    count_events (add_random_songs cache s min_count rand).events
      EventType.skipped path = 0 := by
  rw [count_events, List.countP_eq_zero]
  intro e he
  have := add_random_songs_events_queued cache s min_count rand e he
  simp [this]

/-- Replenishment records no `completed` event. -/
theorem add_random_songs_no_completed (cache : List Song) (s : GuildState)
    (min_count : Nat) (rand : List Nat) :
    count_events_ty (add_random_songs cache s min_count rand).events
      EventType.completed = 0 := by
  rw [count_events_ty, List.countP_eq_zero]
  intro e he
  have := add_random_songs_events_queued cache s min_count rand e he
  simp [this]

/-- After the telemetry block ran (a track and its start time were on
record), the completion handler leaves the skip guard cleared, in every one
of its branches. -/
theorem on_song_end_clears_skip (cache : List Song) (s : GuildState)
    (now : Nat) (rand : List Nat) (t : Song) (start : Nat)
    (hnp : s.now_playing = some t) (hcps : s.current_play_start = some start) :
    (on_song_end cache s true now rand).state.skip_in_progress = false := by
  obtain ⟨pq, mq, np, lm, pz, sk, st, cps, cqt⟩ := s
  simp only at hnp hcps
  subst hnp hcps
  have hframe := fun u => add_random_songs_spec cache u 3 rand
  cases lm <;> cases st <;> cases pq <;> cases mq <;>
    simp [on_song_end, end_stats_connected, play_song] <;>
    (obtain ⟨added, h1, _⟩ := hframe _; rw [h1]) <;> split <;> simp [h1]

/-- C3 counterexample: at a concrete state where the transport is not
playing (so stopping it fires no completion callback), the stop handler
itself ends with the stop guard cleared — the guard was cleared by the
handler that set it (music_cog.py lines 1028 and 1072-1074), not by the
completion handler. -/
theorem c3_counterexample : ¬ c3_claim_at_input := by
  unfold c3_claim_at_input
  decide

/-- C3 (amended): the skip guard is set, never cleared, by the skip request
(and a second request leaves a set guard unchanged, for both guards); the
completion handler is the one that clears the skip guard; the *stop* guard,
however, is also cleared by the stop handler itself at the end of its own
run, so it never survives a completed stop request even when no completion
callback ever fires. -/
theorem c3_guard_discipline (s : GuildState) (cache : List Song)
    (now : Nat) (rand : List Nat) (t : Song) (start : Nat)
    (hnp : s.now_playing = some t) (hcps : s.current_play_start = some start) :
    (skip_request s).1.skip_in_progress = true ∧
    (skip_request s).1.stop_in_progress = s.stop_in_progress ∧
    set_skip_flag (set_skip_flag s) = set_skip_flag s ∧
    set_stop_flag (set_stop_flag s) = set_stop_flag s ∧
    (on_song_end cache s true now rand).state.skip_in_progress = false ∧
    (stop_request_idle s).stop_in_progress = false := by
  refine ⟨rfl, rfl, rfl, rfl,
    on_song_end_clears_skip cache s now rand t start hnp hcps, ?_⟩
  obtain ⟨pq, mq, np, lm, pz, sk, st, cps, cqt⟩ := s
  cases np <;> cases cps <;> simp [stop_request_idle]

/-- Witness for C3 (amended), with `songA` playing over regular queue
`[songB]`. -/
theorem c3_guard_discipline_witness :
    (on_song_end [] ⟨[], [songB], some songA, LoopMode.off, false, true, false,
        some 1, QueueType.regular⟩ true 6 []).state.skip_in_progress = false :=
  (c3_guard_discipline _ [] 6 [] songA 1 rfl rfl).2.2.2.2.1

/-- If no event of a list has kind `ty`, the per-track count for `ty` is 0. -/
theorem count_events_eq_zero (evs : List Event) (ty : EventType) (path : String)
    (h : ∀ e ∈ evs, e.etype ≠ ty) : count_events evs ty path = 0 := by
  rw [count_events, List.countP_eq_zero]
  intro e he
  simp [h e he]

/-- If no event of a list has kind `ty`, the total count for `ty` is 0. -/
theorem count_events_ty_eq_zero (evs : List Event) (ty : EventType)
    (h : ∀ e ∈ evs, e.etype ≠ ty) : count_events_ty evs ty = 0 := by
  rw [count_events_ty, List.countP_eq_zero]
  intro e he
  simp [h e he]

/-- Shape of the telemetry emitted by one connected completion run on a
playing track with no stop pending: first the `skipped`-or-`completed` event
for the finished track (by the skip guard), then only `queued` events (from
inline replenishment) and `started` events (for the next track). -/
theorem on_song_end_events_after_play (cache : List Song) (s : GuildState)
    (now : Nat) (rand : List Nat) (t : Song) (start : Nat)
    (hnp : s.now_playing = some t) (hcps : s.current_play_start = some start)
    (hstop : s.stop_in_progress = false) :
    ∃ rest : List Event,
      (on_song_end cache s true now rand).events =
        (if s.skip_in_progress then
          (⟨t.file_path, EventType.skipped, s.current_queue_type⟩ : Event)
         else ⟨t.file_path, EventType.completed, s.current_queue_type⟩) :: rest ∧
      (∀ e ∈ rest, e.etype = EventType.queued ∨ e.etype = EventType.started) := by
  obtain ⟨pq, mq, np, lm, pz, sk, st, cps, cqt⟩ := s
  simp only at hnp hcps hstop ⊢
  subst hnp hcps hstop
  have hqev := fun u => add_random_songs_events_queued cache u 3 rand
  cases sk <;> cases lm <;> cases pq <;> cases mq <;>
    simp [on_song_end, end_stats_connected, play_song] <;>
    (try split) <;>
    first
      | (refine ⟨[], ?_, ?_⟩ <;> simp
         done)
      | (refine ⟨_, rfl, ?_⟩
         intro e he
         rcases List.mem_append.mp he with h | h
         · exact Or.inl (hqev _ e h)
         · simp at h
           subst h
           exact Or.inr rfl)
      | (refine ⟨_, rfl, ?_⟩
         intro e he
         exact Or.inl (hqev _ e he))

/-- C4: a skip request on a playing track (`skip_in_progress` raised, then
the forced stop fires the completion callback exactly once) yields exactly
one `skipped` event for that track, zero `completed` events altogether, and
leaves the skip guard cleared. -/
theorem c4_skip_telemetry (cache : List Song) (s : GuildState)
    (now : Nat) (rand : List Nat) (t : Song) (start : Nat)
    (hnp : s.now_playing = some t) (hcps : s.current_play_start = some start)
    (hstop : s.stop_in_progress = false) :
    count_events (on_song_end cache (skip_request s).1 true now rand).events
        EventType.skipped t.file_path = 1 ∧
    count_events_ty (on_song_end cache (skip_request s).1 true now rand).events
        EventType.completed = 0 ∧
    (on_song_end cache (skip_request s).1 true now rand).state.skip_in_progress
        = false := by
  obtain ⟨rest, hshape, hrestkind⟩ :=
    on_song_end_events_after_play cache (skip_request s).1 now rand t start
      (by simp [skip_request, hnp]) (by simp [skip_request, hcps])
      (by simp [skip_request, hstop])
  have hflag : (skip_request s).1.skip_in_progress = true := rfl
  rw [hflag] at hshape
  have hrest : ∀ e ∈ rest, e.etype ≠ EventType.skipped ∧
      e.etype ≠ EventType.completed := by
    intro e he
    rcases hrestkind e he with h | h <;> simp [h]
  refine ⟨?_, ?_, on_song_end_clears_skip cache (skip_request s).1 now rand t
    start (by simp [skip_request, hnp]) (by simp [skip_request, hcps])⟩
  · rw [hshape, count_events, List.countP_cons]
    have h0 : count_events rest EventType.skipped t.file_path = 0 :=
      count_events_eq_zero _ _ _ (fun e he => (hrest e he).1)
    rw [count_events] at h0
    simp [h0]
  · rw [hshape, count_events_ty, List.countP_cons]
    have h0 : count_events_ty rest EventType.completed = 0 :=
      count_events_ty_eq_zero _ _ (fun e he => (hrest e he).2)
    rw [count_events_ty] at h0
    simp [h0]

/-- Witness for C4: skipping `songA` while `[songB]` is queued regular. -/
theorem c4_skip_telemetry_witness :
    count_events
      (on_song_end [] (skip_request ⟨[], [songB], some songA, LoopMode.off,
          false, false, false, some 1, QueueType.regular⟩).1 true 6 []).events
      EventType.skipped songA.file_path = 1 :=
  (c4_skip_telemetry [] _ 6 [] songA 1 rfl rfl rfl).1

/-- C5 counterexample: at a concrete state with `songB` queued as the next
candidate, a transport start failure for `songA` does not advance
`now_playing` to `songB` — the `except` handler at music_cog.py lines
431-433 only logs and notifies, so the controller does not treat the failure
like a completion. -/
theorem c5_counterexample : ¬ c5_claim_at_input := by
  unfold c5_claim_at_input
  decide

/-- C5 (amended): when the transport fails to start a track, the controller
does not retry it but also does not advance: `now_playing` and both queues
are left exactly as they were, the only telemetry recorded is the `started`
event emitted before the attempt (the event vocabulary has no failure tag
distinguishable from `completed`/`skipped`), and no playback begins (so no
completion callback will ever fire for it). -/
theorem c5_transport_failure_no_advance (s : GuildState) (t : Song)
    (qtype : QueueType) (now : Nat) :
    (play_song s t qtype now false).state.now_playing = s.now_playing ∧
    (play_song s t qtype now false).state.music_queue = s.music_queue ∧
    (play_song s t qtype now false).state.priority_queue = s.priority_queue ∧
    (play_song s t qtype now false).events =
      [⟨t.file_path, EventType.started, qtype⟩] ∧
    (play_song s t qtype now false).began = false := by
  simp [play_song]

/-- A countdown whose guard has been cleared performs no further state
mutation: every remaining tick sees `alone_since = none` and returns, and
the final disconnect check fails. -/
theorem run_countdown_cancelled (n : Nat) (s : OccState)
    (h : s.alone_since = none) : run_countdown n s = s := by
  cases n with
  | zero => simp [run_countdown, h]
  | succ n => simp [run_countdown, h]

/-- C8: when a human rejoins the bot's channel (count > 0), the voice-state
handler resumes playback (paused flag dropped), clears `alone_since`, and
does not disconnect nor touch `now_playing`; the countdown that was running
is thereby cancelled and performs no state mutation on any subsequent tick,
including the final timeout check. -/
theorem c8_rejoin_cancels_countdown (s : OccState) (humans now n : Nat)
    (h : 0 < humans) (hpaused : s.transport = TransportState.paused) :
    (voice_update s humans now).transport = TransportState.playing ∧
    (voice_update s humans now).alone_since = none ∧
    (voice_update s humans now).connected = s.connected ∧
    (voice_update s humans now).now_playing = s.now_playing ∧
    run_countdown n (voice_update s humans now) = voice_update s humans now := by
  obtain ⟨als, tp, cn, np, hcnt⟩ := s
  simp only at hpaused
  subst hpaused
  have hne : ¬ humans = 0 := by omega
  have hstate : voice_update ⟨als, TransportState.paused, cn, np, hcnt⟩ humans now
      = ⟨none, TransportState.playing, cn, np, humans⟩ := by
    simp [voice_update, hne]
  rw [hstate]
  exact ⟨rfl, rfl, rfl, rfl, run_countdown_cancelled n _ rfl⟩

/-- Witness for C8: the bot is paused and alone since tick 10 with `songA`
on deck; one human returns at tick 50, and the full 36-tick countdown of
`schedule_disconnect` then does nothing. -/
theorem c8_rejoin_cancels_countdown_witness :
    run_countdown 36 (voice_update
        ⟨some 10, TransportState.paused, true, some songA, 0⟩ 1 50) =
      voice_update ⟨some 10, TransportState.paused, true, some songA, 0⟩ 1 50 :=
  (c8_rejoin_cancels_countdown ⟨some 10, TransportState.paused, true,
      some songA, 0⟩ 1 50 36 (by decide) rfl).2.2.2.2

/-- Under the key-faithfulness assumptions (a non-empty queue implies its
dict key exists), the clear handler reduces to a replenishment from the
state with both queues emptied and `now_playing` untouched. -/
theorem handle_clear_as_replenish (cache : List Song) (s : GuildState)
    (has_priority_key has_music_key : Bool) (rand : List Nat)
    (hkp : has_priority_key = false → s.priority_queue = [])
    (hkm : has_music_key = false → s.music_queue = [])
    (hcleared : (has_priority_key || has_music_key) = true) :
    ∃ s3 : GuildState,
      handle_clear cache s has_priority_key has_music_key rand =
        add_random_songs cache s3 3 rand ∧
      s3.priority_queue = [] ∧ s3.music_queue = [] ∧
      s3.now_playing = s.now_playing := by
  obtain ⟨pq, mq, np, lm, pz, sk, st, cps, cqt⟩ := s
  simp only at hkp hkm
  cases has_priority_key with
  | false =>
    cases has_music_key with
    | false => simp at hcleared
    | true =>
      have hpq : pq = [] := hkp rfl
      subst hpq
      cases np <;> cases cps <;> exact ⟨_, rfl, rfl, rfl, rfl⟩
  | true =>
    cases has_music_key with
    | false =>
      have hmq : mq = [] := hkm rfl
      subst hmq
      cases np <;> cases cps <;> exact ⟨_, rfl, rfl, rfl, rfl⟩
    | true =>
      cases np <;> cases cps <;> exact ⟨_, rfl, rfl, rfl, rfl⟩

/-- C10: clearing a guild whose combined queues are non-empty empties the
priority queue, leaves `now_playing` unchanged, and refills the regular
queue with at most 3 randomly selected catalog tracks, none of which
duplicates the now-playing track; whenever the catalog has at least one
entry different from the now-playing track, the refilled regular queue is
non-empty. -/
theorem c10_clear_refills (cache : List Song) (s : GuildState)
    (has_priority_key has_music_key : Bool) (rand : List Nat)
    (hkp : has_priority_key = false → s.priority_queue = [])
    (hkm : has_music_key = false → s.music_queue = [])
    (hne : s.priority_queue ≠ [] ∨ s.music_queue ≠ []) :
    (handle_clear cache s has_priority_key has_music_key rand).state.now_playing
        = s.now_playing ∧
    (handle_clear cache s has_priority_key has_music_key rand).state.priority_queue
        = [] ∧
    (handle_clear cache s has_priority_key has_music_key rand).state.music_queue.length
        ≤ 3 ∧
    (∀ t ∈ (handle_clear cache s has_priority_key has_music_key rand).state.music_queue,
      t.is_random = true ∧ (∃ c ∈ cache, t.file_path = c.file_path) ∧
      ∀ u, s.now_playing = some u → t.file_path ≠ u.file_path) ∧
    ((∃ c ∈ cache, ∀ u, s.now_playing = some u → c.file_path ≠ u.file_path) →
      (handle_clear cache s has_priority_key has_music_key rand).state.music_queue
        ≠ []) := by
  have hcleared : (has_priority_key || has_music_key) = true := by
    cases hbp : has_priority_key
    · cases hbm : has_music_key
      · rcases hne with h | h
        · exact absurd (hkp hbp) h
        · exact absurd (hkm hbm) h
      · simp
    · simp
  obtain ⟨s3, heq, h3p, h3m, h3n⟩ :=
    handle_clear_as_replenish cache s has_priority_key has_music_key rand
      hkp hkm hcleared
  rw [heq]
  obtain ⟨added, g1, _, g3, g4, g5, g6, _, g8, _⟩ :=
    add_random_songs_spec cache s3 3 rand
  have hmusic : (add_random_songs cache s3 3 rand).state.music_queue = added := by
    rw [g1, h3m]
    simp
  have hpaths : queued_song_paths s3 =
      (match s.now_playing with
       | some u => [u.file_path]
       | none => []) := by
    rw [queued_song_paths, h3p, h3m, h3n]
    simp
  refine ⟨by rw [g1]; simpa using h3n, by rw [g1]; simpa using h3p,
    by rw [hmusic]; exact g3, ?_, ?_⟩
  · intro t ht
    rw [hmusic] at ht
    refine ⟨g4 t ht, g6 t ht, ?_⟩
    intro u hu heqpath
    have hc := g5 t ht
    rw [hpaths, hu] at hc
    simp [heqpath] at hc
  · intro ⟨c, hcmem, hcne⟩
    rw [hmusic]
    have hcavail : c ∈ available_songs cache s3 := by
      rw [available_songs, List.mem_filter]
      refine ⟨hcmem, ?_⟩
      rw [hpaths]
      cases hup : s.now_playing with
      | none => simp
      | some u => simpa using hcne u hup
    have havne : available_songs cache s3 ≠ [] := List.ne_nil_of_mem hcavail
    have hlen := g8 havne
    have hpos : 0 < (available_songs cache s3).length :=
      List.length_pos.mpr havne
    have : 0 < added.length := by
      rw [hlen]
      omega
    exact List.ne_nil_of_length_pos this

/-- Witness for C10: clearing a guild playing `songA` with `songB` queued,
against catalog `[songA, songB, songC]`, refills with non-duplicates. -/
theorem c10_clear_refills_witness :
    (handle_clear [songA, songB, songC]
        { baseState with now_playing := some songA, music_queue := [songB] }
        true true [0]).state.music_queue ≠ [] :=
  (c10_clear_refills [songA, songB, songC]
      { baseState with now_playing := some songA, music_queue := [songB] }
      true true [0] (by simp) (by intro h; cases h) (by simp)).2.2.2.2
    ⟨songB, by simp, by intro u hu; cases hu; decide⟩

end MusicBot
